import Mathlib

/-
A shallow embedding of the tutto-adk-agents scheduling core:

* the Portuguese date/time phrase resolver (src/tools/custom/time_parser.py),
* appointment validation and slot availability
  (src/agents/specialized/barbershop_scheduler_agent.py),
* the in-memory mock calendar client
  (src/tools/integrations/google_calendar_client.py).

Python datetime values are modelled by the structure DT of plain naturals
(year, month, day, hour, minute, second).  Python compares datetimes by
their field tuples lexicographically, which is what dtLt below does.
re.search over the parser's fixed patterns is modelled by hand-rolled
scanners over List Char that reproduce the leftmost-match and
greedy-with-backtracking semantics of each original pattern.
-/

namespace Tutto

/-! ### Scanning primitives -/

def dval (c : Char) : Nat := c.toNat - 48

def isWs (c : Char) : Bool :=
  decide (c = ' ' ∨ c = '\t' ∨ c = '\n' ∨ c = '\r' ∨ c = '\x0b' ∨ c = '\x0c')

def eatDigit : List Char → Option (Nat × List Char)
  | [] => none
  | c :: r => if c.isDigit then some (dval c, r) else none

def eatCh (x : Char) : List Char → Option (List Char)
  | [] => none
  | c :: r => if c = x then some r else none

-- the character class [/\-] used by the date patterns
def eatSep : List Char → Option (List Char)
  | [] => none
  | c :: r => if c = '/' ∨ c = '-' then some r else none

def listPfx : List Char → List Char → Bool
  | [], _ => true
  | _ :: _, [] => false
  | p :: ps, c :: cs => if p = c then listPfx ps cs else false

def eat2 (l : List Char) : Option (Nat × List Char) :=
  match eatDigit l with
  | none => none
  | some (a, l1) =>
    match eatDigit l1 with
    | none => none
    | some (b, l2) => some (10 * a + b, l2)

def eat4 (l : List Char) : Option (Nat × List Char) :=
  match eat2 l with
  | none => none
  | some (a, l1) =>
    match eat2 l1 with
    | none => none
    | some (b, l2) => some (100 * a + b, l2)

/-! ### Pattern time_24h: one match attempt at a position, then the scan.
The hour group is greedy (two digits first, then one); the minute group is
exactly two digits. -/

def matchAt24two (l : List Char) : Option (Nat × Nat) :=
  match eat2 l with
  | none => none
  | some (h, l1) =>
    match eatCh ':' l1 with
    | none => none
    | some l2 =>
      match eat2 l2 with
      | none => none
      | some (m, _) => some (h, m)

def matchAt24one (l : List Char) : Option (Nat × Nat) :=
  match eatDigit l with
  | none => none
  | some (h, l1) =>
    match eatCh ':' l1 with
    | none => none
    | some l2 =>
      match eat2 l2 with
      | none => none
      | some (m, _) => some (h, m)

def matchAt24 (l : List Char) : Option (Nat × Nat) :=
  match matchAt24two l with
  | some r => some r
  | none => matchAt24one l

def search24 : List Char → Option (Nat × Nat)
  | [] => none
  | c :: r =>
    match matchAt24 (c :: r) with
    | some x => some x
    | none => search24 r

/-! ### Pattern time_12h: hour, colon, two-digit minute, optional
whitespace, then one of the suffixes am, pm, h. -/

inductive Ampm where
  | am : Ampm
  | pm : Ampm
  | hsuf : Ampm
deriving DecidableEq

def eatAmpm (l : List Char) : Option Ampm :=
  if listPfx ['a', 'm'] l then some .am
  else if listPfx ['p', 'm'] l then some .pm
  else if listPfx ['h'] l then some .hsuf
  else none

def matchAt12after (h : Nat) (l2 : List Char) : Option (Nat × Nat × Ampm) :=
  match eat2 l2 with
  | none => none
  | some (m, l3) =>
    match eatAmpm (l3.dropWhile isWs) with
    | none => none
    | some p => some (h, m, p)

def matchAt12one (l : List Char) : Option (Nat × Nat × Ampm) :=
  match eatDigit l with
  | none => none
  | some (h, l1) =>
    match eatCh ':' l1 with
    | none => none
    | some l2 => matchAt12after h l2

def matchAt12 (l : List Char) : Option (Nat × Nat × Ampm) :=
  match eat2 l with
  | none => matchAt12one l
  | some (h, l1) =>
    match eatCh ':' l1 with
    | none => matchAt12one l
    | some l2 =>
      match matchAt12after h l2 with
      | none => matchAt12one l
      | some r => some r

def search12 : List Char → Option (Nat × Nat × Ampm)
  | [] => none
  | c :: r =>
    match matchAt12 (c :: r) with
    | some x => some x
    | none => search12 r

/-! ### Pattern date_br: day and month groups are greedy one-or-two digit
groups with backtracking, the year group is exactly four digits.  Group
order in the source is (day, month, year). -/

def brTail (day mo : Nat) (l : List Char) : Option (Nat × Nat × Nat) :=
  match eatSep l with
  | none => none
  | some l1 =>
    match eat4 l1 with
    | none => none
    | some (yr, _) => some (day, mo, yr)

def brMonth (day : Nat) (l : List Char) : Option (Nat × Nat × Nat) :=
  match eat2 l with
  | none =>
    match eatDigit l with
    | none => none
    | some (m1, l1) => brTail day m1 l1
  | some (m2, l2) =>
    match brTail day m2 l2 with
    | some r => some r
    | none =>
      match eatDigit l with
      | none => none
      | some (m1, l1) => brTail day m1 l1

def matchAtBrOne (l : List Char) : Option (Nat × Nat × Nat) :=
  match eatDigit l with
  | none => none
  | some (d1, l1) =>
    match eatSep l1 with
    | none => none
    | some l2 => brMonth d1 l2

def matchAtBr (l : List Char) : Option (Nat × Nat × Nat) :=
  match eat2 l with
  | none => matchAtBrOne l
  | some (d2, l2) =>
    match eatSep l2 with
    | none => matchAtBrOne l
    | some l3 =>
      match brMonth d2 l3 with
      | some r => some r
      | none => matchAtBrOne l

def searchBr : List Char → Option (Nat × Nat × Nat)
  | [] => none
  | c :: r =>
    match matchAtBr (c :: r) with
    | some x => some x
    | none => searchBr r

/-! ### Pattern date_iso: four-digit year, then month and day groups of
one-or-two digits (greedy, with backtracking on the month). -/

def isoTail (yr mo : Nat) (l : List Char) : Option (Nat × Nat × Nat) :=
  match eatSep l with
  | none => none
  | some l1 =>
    match eat2 l1 with
    | some (d2, _) => some (yr, mo, d2)
    | none =>
      match eatDigit l1 with
      | none => none
      | some (d1, _) => some (yr, mo, d1)

def isoMonth (yr : Nat) (l : List Char) : Option (Nat × Nat × Nat) :=
  match eat2 l with
  | some (m2, l2) =>
    match isoTail yr m2 l2 with
    | some r => some r
    | none =>
      match eatDigit l with
      | some (m1, l1) => isoTail yr m1 l1
      | none => none
  | none =>
    match eatDigit l with
    | some (m1, l1) => isoTail yr m1 l1
    | none => none

def matchAtIso (l : List Char) : Option (Nat × Nat × Nat) :=
  match eat4 l with
  | none => none
  | some (yr, l1) =>
    match eatSep l1 with
    | none => none
    | some l2 => isoMonth yr l2

def searchIso : List Char → Option (Nat × Nat × Nat)
  | [] => none
  | c :: r =>
    match matchAtIso (c :: r) with
    | some x => some x
    | none => searchIso r

/-! ### The day-month pattern of _parse_date_only, with its negative
lookahead refusing a following separator plus four digits. -/

def la4 (l : List Char) : Bool :=
  match eatSep l with
  | none => false
  | some l1 =>
    match eat4 l1 with
    | none => false
    | some _ => true

def doMonth (day : Nat) (l : List Char) : Option (Nat × Nat) :=
  match eat2 l with
  | some (m2, l2) =>
    if la4 l2 then
      match eatDigit l with
      | some (m1, l1) => if la4 l1 then none else some (day, m1)
      | none => none
    else some (day, m2)
  | none =>
    match eatDigit l with
    | some (m1, l1) => if la4 l1 then none else some (day, m1)
    | none => none

def matchAtDOone (l : List Char) : Option (Nat × Nat) :=
  match eatDigit l with
  | none => none
  | some (d1, l1) =>
    match eatSep l1 with
    | none => none
    | some l2 => doMonth d1 l2

def matchAtDO (l : List Char) : Option (Nat × Nat) :=
  match eat2 l with
  | none => matchAtDOone l
  | some (d2, l2) =>
    match eatSep l2 with
    | none => matchAtDOone l
    | some l3 =>
      match doMonth d2 l3 with
      | some r => some r
      | none => matchAtDOone l

def searchDO : List Char → Option (Nat × Nat)
  | [] => none
  | c :: r =>
    match matchAtDO (c :: r) with
    | some x => some x
    | none => searchDO r

/-! ### Pattern relative_day: ordered alternation of the four keywords. -/

inductive RelDay where
  | hoje : RelDay
  | amanhaAcc : RelDay
  | amanhaPlain : RelDay
  | depoisAmanha : RelDay
deriving DecidableEq

def matchAtRel (l : List Char) : Option RelDay :=
  if listPfx "hoje".toList l then some .hoje
  else if listPfx "amanhã".toList l then some .amanhaAcc
  else if listPfx "amanha".toList l then some .amanhaPlain
  else if listPfx "depois de amanhã".toList l then some .depoisAmanha
  else none

def searchRel : List Char → Option RelDay
  | [] => none
  | c :: r =>
    match matchAtRel (c :: r) with
    | some x => some x
    | none => searchRel r

/-! ### Pattern weekday: an ordered alternation of weekday stems followed
by an optional separator from the class of dash and whitespace, then the
mandatory letters feir and an optional final a.  Note that the regex in
the source only makes the final a optional, not the whole suffix. -/

def wkAlts : List String :=
  ["segunda", "terça", "terca", "quarta", "quinta", "sexta", "sábado",
   "sabado", "domingo"]

def wkSuffix (l : List Char) : Bool :=
  match l with
  | [] => false
  | c :: r =>
    if c = '-' ∨ isWs c then
      if listPfx "feir".toList r then true else listPfx "feir".toList (c :: r)
    else listPfx "feir".toList (c :: r)

def matchAtWkGo : List String → List Char → Option String
  | [], _ => none
  | alt :: rest, l =>
    if listPfx alt.toList l ∧ wkSuffix (l.drop alt.toList.length) then some alt
    else matchAtWkGo rest l

def matchAtWk (l : List Char) : Option String := matchAtWkGo wkAlts l

def searchWk : List Char → Option String
  | [] => none
  | c :: r =>
    match matchAtWk (c :: r) with
    | some x => some x
    | none => searchWk r

/-! ### Period-of-day table.  _extract_time scans the time_periods dict in
insertion order testing plain substring containment.  The source writes
the meio-dia key twice; a Python dict keeps a single entry at the first
position, so the table below has six entries. -/

def containsSub (p : List Char) : List Char → Bool
  | [] => p.isEmpty
  | c :: r => if listPfx p (c :: r) then true else containsSub p r

def timePeriods : List (String × Nat × Nat) :=
  [("manhã", 9, 0), ("manha", 9, 0), ("tarde", 14, 0), ("noite", 19, 0),
   ("meio-dia", 12, 0), ("meio dia", 12, 0)]

def findPeriod : List (String × Nat × Nat) → List Char → Option (Nat × Nat)
  | [], _ => none
  | (p, h, m) :: rest, t =>
    if containsSub p.toList t then some (h, m) else findPeriod rest t

/-! ### The Python datetime model -/

structure DT where
  y : Nat
  mo : Nat
  d : Nat
  h : Nat
  mi : Nat
  s : Nat
deriving DecidableEq

/-- Python compares datetimes by their field tuples; this is that
lexicographic strict order. -/
def dtLt (a b : DT) : Bool :=
  decide (a.y < b.y ∨ (a.y = b.y ∧ (a.mo < b.mo ∨ (a.mo = b.mo ∧
    (a.d < b.d ∨ (a.d = b.d ∧ (a.h < b.h ∨ (a.h = b.h ∧
    (a.mi < b.mi ∨ (a.mi = b.mi ∧ a.s < b.s))))))))))

def dtLe (a b : DT) : Bool := !(dtLt b a)

def dateLtB (a b : DT) : Bool :=
  decide (a.y < b.y ∨ (a.y = b.y ∧ (a.mo < b.mo ∨ (a.mo = b.mo ∧ a.d < b.d))))

def dateLeB (a b : DT) : Bool := !(dateLtB b a)

def leapYear (yr : Nat) : Bool :=
  decide ((yr % 4 = 0 ∧ yr % 100 ≠ 0) ∨ yr % 400 = 0)

def daysInMonth (yr mo : Nat) : Nat :=
  if mo = 2 then (if leapYear yr then 29 else 28)
  else if mo = 4 ∨ mo = 6 ∨ mo = 9 ∨ mo = 11 then 30
  else 31

def nextDay (dt : DT) : DT :=
  if dt.d + 1 ≤ daysInMonth dt.y dt.mo then { dt with d := dt.d + 1 }
  else if dt.mo + 1 ≤ 12 then { dt with mo := dt.mo + 1, d := 1 }
  else { dt with y := dt.y + 1, mo := 1, d := 1 }

def addDays (dt : DT) : Nat → DT
  | 0 => dt
  | n + 1 => nextDay (addDays dt n)

/-- timedelta(minutes) addition for a nonnegative number of minutes. -/
def addMinutes (dt : DT) (k : Nat) : DT :=
  let total := dt.mi + k
  let hc := dt.h + total / 60
  addDays { dt with h := hc % 24, mi := total % 60 } (hc / 24)

/-! Proleptic-Gregorian ordinal as in Python date.toordinal, from which
date.weekday is (ordinal + 6) mod 7 since ordinal 1 is a Monday. -/

def daysBeforeYear (yr : Nat) : Nat :=
  365 * (yr - 1) + (yr - 1) / 4 - (yr - 1) / 100 + (yr - 1) / 400

def daysBeforeMonth (yr : Nat) (mo : Nat) : Nat :=
  match mo with
  | 0 => 0
  | 1 => 0
  | m + 1 => daysBeforeMonth yr m + daysInMonth yr m

def toordinal (yr mo d : Nat) : Nat :=
  daysBeforeYear yr + daysBeforeMonth yr mo + d

def pyWeekdayDate (yr mo d : Nat) : Nat := (toordinal yr mo d + 6) % 7

def pyWeekday (dt : DT) : Nat := pyWeekdayDate dt.y dt.mo dt.d

/-! Validity of the arguments of the datetime constructor, which raises
ValueError outside these bounds. -/

def dateValid (yr mo d : Nat) : Bool :=
  decide (1 ≤ mo) && decide (mo ≤ 12) && decide (1 ≤ d) &&
  decide (d ≤ daysInMonth yr mo) && decide (1 ≤ yr) && decide (yr ≤ 9999)

def timeValid (h mi : Nat) : Bool := decide (h ≤ 23) && decide (mi ≤ 59)

def mkDT (yr mo d h mi : Nat) : Option DT :=
  if dateValid yr mo d && timeValid h mi then some ⟨yr, mo, d, h, mi, 0⟩
  else none

def mkDate (yr mo d : Nat) : Option DT :=
  if dateValid yr mo d then some ⟨yr, mo, d, 0, 0, 0⟩ else none

/-! ### Text normalisation: text.lower().strip() -/

def pyLowerChar (c : Char) : Char :=
  if 'A' ≤ c ∧ c ≤ 'Z' then Char.ofNat (c.toNat + 32)
  else if c = 'Á' then 'á' else if c = 'À' then 'à' else if c = 'Â' then 'â'
  else if c = 'Ã' then 'ã' else if c = 'Ç' then 'ç' else if c = 'É' then 'é'
  else if c = 'Ê' then 'ê' else if c = 'Í' then 'í' else if c = 'Ó' then 'ó'
  else if c = 'Ô' then 'ô' else if c = 'Õ' then 'õ' else if c = 'Ú' then 'ú'
  else c

def stripBy (p : Char → Bool) (l : List Char) : List Char :=
  ((l.dropWhile p).reverse.dropWhile p).reverse

def normText (s : String) : List Char := stripBy isWs (s.toList.map pyLowerChar)

/-! ### TimeParser._extract_time -/

def extractTime12 (t : List Char) : Option (Nat × Nat) :=
  match search12 t with
  | some (h, m, p) =>
    let h2 := if p = Ampm.pm ∧ h ≠ 12 then h + 12
              else if p = Ampm.am ∧ h = 12 then 0 else h
    if h2 ≤ 23 ∧ m ≤ 59 then some (h2, m) else findPeriod timePeriods t
  | none => findPeriod timePeriods t

def extractTime (t : List Char) : Option (Nat × Nat) :=
  match search24 t with
  | some (h, m) =>
    if h ≤ 23 ∧ m ≤ 59 then some (h, m) else extractTime12 t
  | none => extractTime12 t

def timeOrDefault (t : List Char) : Nat × Nat :=
  match extractTime t with
  | some p => p
  | none => (9, 0)

/-! ### TimeParser parse strategies.  All of them receive the lowered and
stripped text; the base date parameter stands for the explicit reference
moment (the source defaults it to the wall clock when absent, which this
model keeps explicit). -/

def explicitWithDate (yr mo d : Nat) (t : List Char) : Option DT :=
  match search24 t with
  | some (h, mi) => mkDT yr mo d h mi
  | none => mkDT yr mo d 9 0

def parseExplicit (t : List Char) : Option DT :=
  match searchBr t with
  | some (d, mo, yr) => explicitWithDate yr mo d t
  | none =>
    match searchIso t with
    | some (yr, mo, d) => explicitWithDate yr mo d t
    | none => none

def parseRelative (t : List Char) (base : DT) : Option DT :=
  match searchRel t with
  | none => none
  | some r =>
    let targ : DT :=
      match r with
      | .hoje => base
      | .amanhaAcc => addDays base 1
      | .amanhaPlain => addDays base 1
      | .depoisAmanha => addDays base 2
    let hm := timeOrDefault t
    some ⟨targ.y, targ.mo, targ.d, hm.1, hm.2, 0⟩

def weekdaysPt : List (String × Nat) :=
  [("segunda", 0), ("segunda-feira", 0), ("terça", 1), ("terca", 1),
   ("terça-feira", 1), ("terca-feira", 1), ("quarta", 2), ("quarta-feira", 2),
   ("quinta", 3), ("quinta-feira", 3), ("sexta", 4), ("sexta-feira", 4),
   ("sábado", 5), ("sabado", 5), ("domingo", 6)]

/-- The normalisation the source applies to the captured weekday stem:
drop a feira suffix, then strip dashes, then strip whitespace. -/
def wkNormalize (nm : String) : List Char :=
  let l := nm.toList
  let l1 := if listPfx "feira".toList.reverse l.reverse then
              l.take (l.length - 5)
            else l
  stripBy isWs (stripBy (fun c => decide (c = '-')) l1)

def lookupWk : List (String × Nat) → List Char → Option Nat
  | [], _ => none
  | (nm, v) :: rest, k => if nm.toList = k then some v else lookupWk rest k

def parseWeekday (t : List Char) (base : DT) : Option DT :=
  match searchWk t with
  | none => none
  | some nm =>
    match lookupWk weekdaysPt (wkNormalize nm) with
    | none => none
    | some target =>
      let cur := pyWeekday base
      let diff : Int := (target : Int) - (cur : Int)
      let diff2 : Int := if diff ≤ 0 then diff + 7 else diff
      let targ := addDays base diff2.toNat
      let hm := timeOrDefault t
      some ⟨targ.y, targ.mo, targ.d, hm.1, hm.2, 0⟩

def parseDateOnly (t : List Char) (base : DT) : Option DT :=
  match searchDO t with
  | none => none
  | some (d, mo) =>
    match mkDate base.y mo d with
    | none => none
    | some dt0 =>
      match (if dateLeB dt0 base then mkDate (base.y + 1) mo d else some dt0) with
      | none => none
      | some dt1 =>
        let hm := timeOrDefault t
        some ⟨dt1.y, dt1.mo, dt1.d, hm.1, hm.2, 0⟩

def parseTimeOnly (t : List Char) (base : DT) : Option DT :=
  match extractTime t with
  | none => none
  | some (h, mi) =>
    let targ : DT := ⟨base.y, base.mo, base.d, h, mi, 0⟩
    some (if dtLe targ base then addDays targ 1 else targ)

def parseDatetime (s : String) (base : DT) : Option DT :=
  let t := normText s
  match parseExplicit t with
  | some r => some r
  | none =>
    match parseRelative t base with
    | some r => some r
    | none =>
      match parseWeekday t base with
      | some r => some r
      | none =>
        match parseDateOnly t base with
        | some r => some r
        | none => parseTimeOnly t base

/-! ### TimeParser.format_datetime_pt -/

def weekdaysPtNames : List String :=
  ["Segunda-feira", "Terça-feira", "Quarta-feira", "Quinta-feira",
   "Sexta-feira", "Sábado", "Domingo"]

def monthsPtNames : List String :=
  ["", "Janeiro", "Fevereiro", "Março", "Abril", "Maio", "Junho", "Julho",
   "Agosto", "Setembro", "Outubro", "Novembro", "Dezembro"]

def pad2s (n : Nat) : String := if n < 10 then "0" ++ toString n else toString n

def formatDatetimePt (dt : DT) : String :=
  (weekdaysPtNames.getD (pyWeekday dt) "") ++ ", " ++ toString dt.d ++ " de " ++
  (monthsPtNames.getD dt.mo "") ++ " de " ++ toString dt.y ++ " às " ++
  pad2s dt.h ++ ":" ++ pad2s dt.mi

/-! ### strptime for the two formats the scheduler uses.
Python strptime compiles the format to a regex and then builds a datetime,
raising ValueError when the regex does not consume the whole string or the
datetime constructor rejects the fields.  The directive for a four-digit
year is exactly four digits; month, day, hour and minute directives accept
one or two digits.  Their extra lexical restrictions (such as the month
directive refusing 13) are subsumed here by the constructor validity
check, which rejects the same strings.  One marginal lexical case, a day
written as a space followed by one digit, is not reproduced; no caller
builds such a string. -/

def minEnd1 (l : List Char) : Option Nat :=
  match eatDigit l with
  | some (m1, l1) => if l1.isEmpty then some m1 else none
  | none => none

def minEnd (l : List Char) : Option Nat :=
  match eat2 l with
  | some (m2, l2) => if l2.isEmpty then some m2 else minEnd1 l
  | none => minEnd1 l

def hmPart1 (l : List Char) : Option (Nat × Nat) :=
  match eatDigit l with
  | some (h1, l1) =>
    match eatCh ':' l1 with
    | some l3 => (minEnd l3).map (fun m => (h1, m))
    | none => none
  | none => none

def hmPart (l : List Char) : Option (Nat × Nat) :=
  match eat2 l with
  | some (h2, l2) =>
    match eatCh ':' l2 with
    | some l3 =>
      match minEnd l3 with
      | some m => some (h2, m)
      | none => hmPart1 l
    | none => hmPart1 l
  | none => hmPart1 l

-- whitespace in the format matches one or more whitespace characters
def wsHM (l : List Char) : Option (Nat × Nat) :=
  match l with
  | [] => none
  | c :: r => if isWs c then hmPart (r.dropWhile isWs) else none

def dayEndNum1 (l : List Char) : Option Nat :=
  match eatDigit l with
  | some (d1, l1) => if l1.isEmpty then some d1 else none
  | none => none

def dayEndNum (l : List Char) : Option Nat :=
  match eat2 l with
  | some (d2, l2) => if l2.isEmpty then some d2 else dayEndNum1 l
  | none => dayEndNum1 l

def moDash1 (l : List Char) : Option (Nat × Nat) :=
  match eatDigit l with
  | some (m1, l1) =>
    match eatCh '-' l1 with
    | some l3 => (dayEndNum l3).map (fun d => (m1, d))
    | none => none
  | none => none

def moDash (l : List Char) : Option (Nat × Nat) :=
  match eat2 l with
  | some (m2, l2) =>
    match eatCh '-' l2 with
    | some l3 =>
      match dayEndNum l3 with
      | some d => some (m2, d)
      | none => moDash1 l
    | none => moDash1 l
  | none => moDash1 l

/-- strptime with format year-month-day, then the date constructor. -/
def parseISODate (s : String) : Option (Nat × Nat × Nat) :=
  match eat4 s.toList with
  | none => none
  | some (yr, l1) =>
    match eatCh '-' l1 with
    | none => none
    | some l2 =>
      match moDash l2 with
      | none => none
      | some (mo, d) => if dateValid yr mo d then some (yr, mo, d) else none

def dayWs1 (l : List Char) : Option (Nat × Nat × Nat) :=
  match eatDigit l with
  | some (d1, l1) => (wsHM l1).map (fun p => (d1, p.1, p.2))
  | none => none

def dayWs (l : List Char) : Option (Nat × Nat × Nat) :=
  match eat2 l with
  | some (d2, l2) =>
    match wsHM l2 with
    | some (h, m) => some (d2, h, m)
    | none => dayWs1 l
  | none => dayWs1 l

def moDashDT1 (l : List Char) : Option (Nat × Nat × Nat × Nat) :=
  match eatDigit l with
  | some (m1, l1) =>
    match eatCh '-' l1 with
    | some l3 => (dayWs l3).map (fun p => (m1, p))
    | none => none
  | none => none

def moDashDT (l : List Char) : Option (Nat × Nat × Nat × Nat) :=
  match eat2 l with
  | some (m2, l2) =>
    match eatCh '-' l2 with
    | some l3 =>
      match dayWs l3 with
      | some p => some (m2, p)
      | none => moDashDT1 l
    | none => moDashDT1 l
  | none => moDashDT1 l

/-- strptime with format year-month-day hour:minute, then the datetime
constructor. -/
def parseISODateTime (s : String) : Option DT :=
  match eat4 s.toList with
  | none => none
  | some (yr, l1) =>
    match eatCh '-' l1 with
    | none => none
    | some l2 =>
      match moDashDT l2 with
      | none => none
      | some (mo, d, h, mi) => mkDT yr mo d h mi

/-! ### BarbershopSchedulerAgent configuration data -/

def servicesDefault : List (String × Nat) :=
  [("corte_simples", 30), ("corte_barba", 45), ("corte_completo", 60),
   ("barba", 30), ("sobrancelha", 15)]
-- service durations in minutes; the prices also carried by the source
-- dict are read by no modelled operation and are omitted

def businessHoursDefault : List (String × String × String) :=
  [("monday", "09:00", "18:00"), ("tuesday", "09:00", "18:00"),
   ("wednesday", "09:00", "18:00"), ("thursday", "09:00", "18:00"),
   ("friday", "09:00", "19:00"), ("saturday", "08:00", "17:00"),
   ("sunday", "closed", "closed")]

/-- strftime directive A lowered: the English weekday name keying the
business-hours table. -/
def weekdayName (w : Nat) : String :=
  (["monday", "tuesday", "wednesday", "thursday", "friday", "saturday",
    "sunday"]).getD w ""

def lookupHours : List (String × String × String) → String →
    Option (String × String)
  | [], _ => none
  | (nm, se) :: rest, k => if nm = k then some se else lookupHours rest k

def closedFlag (hours : List (String × String × String)) (dayName : String) :
    Bool :=
  match lookupHours hours dayName with
  | some (st, _) => st == "closed"
  | none => false

/-- int applied to the text before the first colon, as in the source's
split-and-int of an opening or closing hour. -/
def intOfDigits (l : List Char) : Option Nat :=
  if l.isEmpty then none
  else if l.all Char.isDigit then
    some (l.foldl (fun acc c => 10 * acc + dval c) 0)
  else none

def hourOfString (s : String) : Option Nat :=
  intOfDigits (s.toList.takeWhile (fun c => decide (c ≠ ':')))

/-! ### BarbershopSchedulerAgent._validate_appointment.
The wall-clock date the source reads through datetime.now is the explicit
today parameter here.  Error constructors stand for the dicts with valid
false and the corresponding Portuguese message; ok carries the start and
end datetimes the source writes back into the appointment data; exn
models an uncaught ValueError escaping from the final strptime call. -/

structure ApptData where
  customer_name : Option String
  service : Option String
  date : Option String
  time : Option String
  duration : Option Nat

-- Python truthiness of a fetched field: absent or empty means missing
def truthy (o : Option String) : Bool :=
  match o with
  | none => false
  | some s => decide (s ≠ "")

def firstMissing (a : ApptData) : Option String :=
  if !truthy a.customer_name then some "customer_name"
  else if !truthy a.service then some "service"
  else if !truthy a.date then some "date"
  else if !truthy a.time then some "time"
  else none

inductive VErr where
  | missingField : String → VErr
  | unknownService : VErr
  | badDateFormat : VErr
  | pastDate : VErr
  | closedDay : VErr
deriving DecidableEq

inductive VRes where
  | err : VErr → VRes
  | ok : DT → DT → VRes
  | exn : VRes
deriving DecidableEq

def validateAppointment (services : List (String × Nat))
    (hours : List (String × String × String)) (today : DT) (a : ApptData) :
    VRes :=
  match firstMissing a with
  | some f => .err (.missingField f)
  | none =>
    if !(services.find? (fun p => p.1 == a.service.getD "")).isSome then
      .err .unknownService
    else
      match parseISODate (a.date.getD "") with
      | none => .err .badDateFormat
      | some (yr, mo, d) =>
        if dateLtB ⟨yr, mo, d, 0, 0, 0⟩ today then .err .pastDate
        else if closedFlag hours (weekdayName (pyWeekdayDate yr mo d)) then
          .err .closedDay
        else
          match parseISODateTime ((a.date.getD "") ++ " " ++ (a.time.getD "")) with
          | none => .exn
          | some sdt => .ok sdt (addMinutes sdt (a.duration.getD 60))

/-! ### Slot generation.
generateAvailableSlots is _generate_available_slots: the occupied argument
stands for the (start, end) datetime pairs obtained from the events whose
dateTime strings are present, the ISO-string decoding being elided; the
returned hour-minute pairs stand for the zero-padded colon-separated slot
strings the source appends.  A none result models the exceptions the
source can raise there: strptime ValueError, a KeyError on a weekday
missing from the hours table, or int ValueError on a malformed hour. -/

def slotFree (occupied : List (DT × DT)) (slot : DT) : Bool :=
  occupied.all (fun ab => !(dtLe ab.1 slot && dtLt slot ab.2))

def halfHourSlots (sh eh : Nat) : List (Nat × Nat) :=
  (List.range' sh (eh - sh)).flatMap (fun hh => [(hh, 0), (hh, 30)])

def generateAvailableSlots (hours : List (String × String × String))
    (dateStr : String) (occupied : List (DT × DT)) :
    Option (List (Nat × Nat)) :=
  match parseISODate dateStr with
  | none => none
  | some (yr, mo, d) =>
    if closedFlag hours (weekdayName (pyWeekdayDate yr mo d)) then some []
    else
      match lookupHours hours (weekdayName (pyWeekdayDate yr mo d)) with
      | none => none
      | some (st, en) =>
        match hourOfString st, hourOfString en with
        | some sh, some eh =>
          some ((halfHourSlots sh eh).filter
            (fun hm => slotFree occupied ⟨yr, mo, d, hm.1, hm.2, 0⟩))
        | _, _ => none

/-- The closing-hour fit test of _generate_alternative_slots on the slot
end produced by adding the duration. -/
def fitsClose (eh : Nat) (slotEnd : DT) : Bool :=
  decide (slotEnd.h < eh ∨ (slotEnd.h = eh ∧ slotEnd.mi = 0))

/-- _generate_alternative_slots: the first three half-hour starts fitting
the closing hour, collected in order; the double break at three equals
filter-then-take.  Candidates are not rechecked against existing events
(the source marks this simplified). -/
def generateAlternativeSlots (hours : List (String × String × String))
    (dateStr : String) (dur : Nat) : Option (List (Nat × Nat)) :=
  match parseISODate dateStr with
  | none => none
  | some (yr, mo, d) =>
    if closedFlag hours (weekdayName (pyWeekdayDate yr mo d)) then some []
    else
      match lookupHours hours (weekdayName (pyWeekdayDate yr mo d)) with
      | none => none
      | some (st, en) =>
        match hourOfString st, hourOfString en with
        | some sh, some eh =>
          some (((halfHourSlots sh eh).filter
            (fun hm => fitsClose eh (addMinutes ⟨yr, mo, d, hm.1, hm.2, 0⟩ dur))).take 3)
        | _, _ => none

/-! ### MockGoogleCalendarClient.  The events dict is an association list
in insertion order; get_events ignores its window arguments and returns
every stored event, as the source does. -/

structure MockEvent where
  eid : String
  summary : String
  description : String
  startStr : String
  endStr : String
  status : String
deriving DecidableEq

structure MockCalendar where
  events : List (String × MockEvent)
  counter : Nat
deriving DecidableEq

structure EventsRes where
  success : Bool
  events : List MockEvent
  total : Nat
deriving DecidableEq

def mockGetEvents (st : MockCalendar) (_cid : String) (_startT _endT : DT) :
    EventsRes :=
  { success := true, events := st.events.map Prod.snd,
    total := st.events.length }

structure OpRes where
  success : Bool
  message : String
deriving DecidableEq

def hasKey (st : MockCalendar) (eid : String) : Bool :=
  (st.events.find? (fun p => p.1 == eid)).isSome

def mockDeleteEvent (st : MockCalendar) (_cid eid : String) :
    MockCalendar × OpRes :=
  if hasKey st eid then
    ({ st with events := st.events.filter (fun p => p.1 != eid) },
     { success := true, message := "Evento deletado com sucesso (MOCK)" })
  else (st, { success := true, message := "Evento já foi deletado (MOCK)" })

/-- BarbershopSchedulerAgent.cancel_appointment running against the mock
client: delegate to delete_event and translate its success flag.  The
failure message of the source carries the adapter error text; the branch
is unreachable against the mock, whose deletions always succeed. -/
def cancelAppointment (st : MockCalendar) (cid aid : String) :
    MockCalendar × OpRes :=
  let r := mockDeleteEvent st cid aid
  if r.2.success then
    (r.1, { success := true, message := "Agendamento cancelado com sucesso" })
  else (r.1, { success := false, message := "Erro ao cancelar agendamento" })

structure AvailRes where
  available : Bool
  suggestions : List (Nat × Nat)
deriving DecidableEq

/-- BarbershopSchedulerAgent._check_slot_availability composed with the
mock calendar client: build the start and end datetimes, fetch events for
that window, and report a conflict with alternative suggestions whenever
the fetch succeeded and returned a nonempty list.  none models the
uncaught strptime ValueError. -/
def checkSlotAvailability (hours : List (String × String × String))
    (st : MockCalendar) (dateStr timeStr : String) (dur : Nat) :
    Option AvailRes :=
  match parseISODateTime (dateStr ++ " " ++ timeStr) with
  | none => none
  | some sdt =>
    let edt := addMinutes sdt dur
    let res := mockGetEvents st "primary" sdt edt
    if res.success && !res.events.isEmpty then
      match generateAlternativeSlots hours dateStr dur with
      | none => none
      | some sugg => some { available := false, suggestions := sugg }
    else some { available := true, suggestions := [] }

def digitChar (n : Nat) : Char := Char.ofNat (48 + n)

def pad2c (n : Nat) : List Char := [digitChar (n / 10), digitChar (n % 10)]

def pad4c (n : Nat) : List Char :=
  [digitChar (n / 1000), digitChar (n / 100 % 10), digitChar (n / 10 % 10),
   digitChar (n % 10)]

/-- Modelled from the spec: the zero-padded explicit-date rendering
day/month/year hour:minute of a resolved moment, the round-trip form the
specification designates.  The repository itself renders moments only
through format_datetime_pt, so this renderer is taken from the spec's
words rather than from a source function. -/
def renderExplicit (dt : DT) : List Char :=
  pad2c dt.d ++ ['/'] ++ pad2c dt.mo ++ ['/'] ++ pad4c dt.y ++ [' '] ++
  pad2c dt.h ++ [':'] ++ pad2c dt.mi

/-! ## Theorems -/

/-- Claim C1.  The claim reads every phrase naming a weekday, with the
feira suffix optional, as resolving to a date strictly after the
reference date.  The weekday pattern of the source in fact requires the
letters feir after the stem, so the bare weekday phrase sexta plus a time
is never handled by the weekday rule: it falls through to the bare-time
rule and, with reference Sunday 2024-08-04 10:00, resolves to the very
same date at 16:00 instead of the following Friday. -/
theorem c1_weekday_suffix_mandatory :
    parseDatetime "sexta 16:00" ⟨2024, 8, 4, 10, 0, 0⟩ =
      some ⟨2024, 8, 4, 16, 0, 0⟩ ∧
    searchWk (normText "sexta 16:00") = none ∧
    parseDatetime "sexta" ⟨2024, 8, 4, 10, 0, 0⟩ = none := by
  exact ⟨rfl, rfl, rfl⟩

/-- Claim C5.  Deleting an event absent from the mock calendar store
reports success and leaves the store unchanged, and the orchestrator's
cancel operation on that identifier therefore reports success as well. -/
theorem c5_cancel_idempotent (st : MockCalendar) (cid aid : String)
    (h : hasKey st aid = false) :
    (mockDeleteEvent st cid aid).2.success = true ∧
    (mockDeleteEvent st cid aid).1 = st ∧
    (cancelAppointment st cid aid).2.success = true := by
  unfold cancelAppointment mockDeleteEvent
  rw [h]
  simp

/-- Witness for c5_cancel_idempotent at the empty store and an absent
identifier. -/
theorem c5_cancel_idempotent_witness :
    (mockDeleteEvent ⟨[], 1⟩ "primary" "mock_event_9").2.success = true ∧
    (mockDeleteEvent ⟨[], 1⟩ "primary" "mock_event_9").1 = (⟨[], 1⟩ : MockCalendar) ∧
    (cancelAppointment ⟨[], 1⟩ "primary" "mock_event_9").2.success = true :=
  c5_cancel_idempotent ⟨[], 1⟩ "primary" "mock_event_9" (by decide)

/-- Claim C6, counterexample.  The claim says the extraction recognizes a
12-hour time with am or pm and converts it, 2:30 pm becoming 14:30.  In
the source the 24-hour pattern is searched first and already matches the
digits of 2:30 pm, so the extraction yields 02:30, not 14:30, and the
resolved moment carries hour 2. -/
theorem c6_counterexample :
    extractTime "2:30 pm".toList = some (2, 30) ∧
    extractTime "2:30 pm".toList ≠ some (14, 30) ∧
    parseDatetime "2:30 pm" ⟨2024, 8, 4, 10, 0, 0⟩ =
      some ⟨2024, 8, 5, 2, 30, 0⟩ := by
  exact ⟨rfl, by decide, rfl⟩

/-- Claim C6 as amended.  Whenever the 24-hour pattern finds an in-range
match in the phrase, the extraction returns exactly that match, so an
am or pm suffix after an in-range time is ignored; the 12-hour conversion
branch can only act when the first 24-hour match is out of range. -/
theorem c6_amended_24h_precedence (t : List Char) (h m : Nat)
    (h24 : search24 t = some (h, m)) (hh : h ≤ 23) (hm : m ≤ 59) :
    extractTime t = some (h, m) := by
  unfold extractTime
  rw [h24]
  simp [hh, hm]

/-- Witness for c6_amended_24h_precedence on the phrase 2:30 pm. -/
theorem c6_amended_24h_precedence_witness :
    extractTime "2:30 pm".toList = some (2, 30) :=
  c6_amended_24h_precedence "2:30 pm".toList 2 30 rfl (by decide) (by decide)

/-- Claim C7, counterexample.  The claim predicts that the phrase
12/03/2024 25:00 resolves to 12 March 2024 at the default time 09:00.
The explicit branch of the source extracts the time with an unvalidated
regex and hands hour 25 to the datetime constructor, which fails, so the
whole resolution yields the absent value instead. -/
theorem c7_counterexample :
    parseDatetime "12/03/2024 25:00" ⟨2024, 8, 4, 10, 0, 0⟩ = none ∧
    (none : Option DT) ≠ some ⟨2024, 3, 12, 9, 0, 0⟩ := by
  exact ⟨rfl, by decide⟩

/-- Claim C7 as amended.  In _extract_time an out-of-range time token is
treated as no match, but the explicit-date branch does not use
_extract_time: it feeds the raw match to the datetime constructor, whose
failure aborts the branch, and no other strategy matches the phrase, so
for every reference moment the phrase 12/03/2024 25:00 resolves to the
absent value rather than to the date at 09:00. -/
theorem c7_amended_overflow_not_resolved :
    (∀ base : DT, parseDatetime "12/03/2024 25:00" base = none) ∧
    extractTime "25:00".toList = none := by
  exact ⟨fun _ => rfl, rfl⟩

/-- Claim C2.  When no date pattern matches the phrase and the time
extraction finds hour and minute, the resolution is the reference date at
that time if the time is still strictly in the future relative to the
reference moment, and otherwise the next day at that time. -/
theorem c2_bare_time (text : String) (base : DT) (h mi : Nat)
    (hbr : searchBr (normText text) = none)
    (hiso : searchIso (normText text) = none)
    (hrel : searchRel (normText text) = none)
    (hwk : searchWk (normText text) = none)
    (hdo : searchDO (normText text) = none)
    (hex : extractTime (normText text) = some (h, mi)) :
    (dtLt base ⟨base.y, base.mo, base.d, h, mi, 0⟩ = true →
      parseDatetime text base = some ⟨base.y, base.mo, base.d, h, mi, 0⟩) ∧
    (dtLe ⟨base.y, base.mo, base.d, h, mi, 0⟩ base = true →
      parseDatetime text base =
        some (addDays ⟨base.y, base.mo, base.d, h, mi, 0⟩ 1)) := by
  constructor
  · intro hfut
    have hle : dtLe ⟨base.y, base.mo, base.d, h, mi, 0⟩ base = false := by
      unfold dtLe
      rw [hfut]
      rfl
    simp only [parseDatetime, parseExplicit, parseRelative, parseWeekday,
      parseDateOnly, parseTimeOnly, hbr, hiso, hrel, hwk, hdo, hex, hle]
    simp
  · intro hpast
    simp only [parseDatetime, parseExplicit, parseRelative, parseWeekday,
      parseDateOnly, parseTimeOnly, hbr, hiso, hrel, hwk, hdo, hex, hpast]
    simp

/-- Witness for c2_bare_time on the phrase 14:30 with reference
2024-08-04 10:00. -/
theorem c2_bare_time_witness :
    (dtLt ⟨2024, 8, 4, 10, 0, 0⟩ ⟨2024, 8, 4, 14, 30, 0⟩ = true →
      parseDatetime "14:30" ⟨2024, 8, 4, 10, 0, 0⟩ =
        some ⟨2024, 8, 4, 14, 30, 0⟩) ∧
    (dtLe ⟨2024, 8, 4, 14, 30, 0⟩ ⟨2024, 8, 4, 10, 0, 0⟩ = true →
      parseDatetime "14:30" ⟨2024, 8, 4, 10, 0, 0⟩ =
        some (addDays ⟨2024, 8, 4, 14, 30, 0⟩ 1)) :=
  c2_bare_time "14:30" ⟨2024, 8, 4, 10, 0, 0⟩ 14 30 rfl rfl rfl rfl rfl rfl

/-- Claim C3.  With the required fields present, the service known, the
date parsing and not strictly before today, an appointment on a weekday
whose business-hours entry is marked closed is rejected with the
closed-day validation error, whatever the remaining fields hold; the
hypotheses are listed in the source's fail-fast order. -/
theorem c3_closed_day (services : List (String × Nat))
    (hours : List (String × String × String)) (today : DT) (a : ApptData)
    (yr mo d : Nat)
    (h1 : firstMissing a = none)
    (h2 : (services.find? (fun p => p.1 == a.service.getD "")).isSome = true)
    (h3 : parseISODate (a.date.getD "") = some (yr, mo, d))
    (h4 : dateLtB ⟨yr, mo, d, 0, 0, 0⟩ today = false)
    (h5 : closedFlag hours (weekdayName (pyWeekdayDate yr mo d)) = true) :
    validateAppointment services hours today a = .err .closedDay := by
  unfold validateAppointment
  rw [h1, h2, h3]
  simp [h4, h5]

/-- Witness for c3_closed_day: a fully valid request for Sunday
2025-01-05, today being 2025-01-01, against the default catalog and
default business hours. -/
theorem c3_closed_day_witness :
    validateAppointment servicesDefault businessHoursDefault
      ⟨2025, 1, 1, 8, 0, 0⟩
      ⟨some "Ana", some "corte_simples", some "2025-01-05", some "10:00",
        none⟩ = .err .closedDay :=
  c3_closed_day servicesDefault businessHoursDefault ⟨2025, 1, 1, 8, 0, 0⟩
    ⟨some "Ana", some "corte_simples", some "2025-01-05", some "10:00", none⟩
    2025 1 5 rfl rfl (by decide) (by decide) (by decide)

/-- Claim C9.  The mock get_events ignores its query window and returns
every stored event, so the slot-availability check run against the mock
reports a conflict exactly when the store holds at least one event,
wherever that event lies. -/
theorem c9_mock_window_ignored (st : MockCalendar) (cid : String)
    (t1 t2 : DT) (hours : List (String × String × String))
    (dateStr timeStr : String) (dur : Nat) (res : AvailRes)
    (hres : checkSlotAvailability hours st dateStr timeStr dur = some res) :
    (mockGetEvents st cid t1 t2).events = st.events.map Prod.snd ∧
    (mockGetEvents st cid t1 t2).success = true ∧
    (res.available = false ↔ st.events ≠ []) := by
  refine ⟨rfl, rfl, ?_⟩
  unfold checkSlotAvailability at hres
  cases hp : parseISODateTime (dateStr ++ " " ++ timeStr) with
  | none => rw [hp] at hres; exact absurd hres (by simp)
  | some sdt =>
    rw [hp] at hres
    simp only [mockGetEvents] at hres
    cases hev : st.events with
    | nil => simp [hev] at hres; simp [← hres, hev]
    | cons e rest =>
      simp only [hev] at hres
      simp only [List.map_cons, List.isEmpty_cons, Bool.not_false,
        Bool.and_true, if_true] at hres
      cases halt : generateAlternativeSlots hours dateStr dur with
      | none => rw [halt] at hres; exact absurd hres (by simp)
      | some sugg =>
        rw [halt] at hres
        simp only [Option.some.injEq] at hres
        rw [← hres]
        simp [hev]

/-- Witness for c9_mock_window_ignored: a store holding one event far
from the queried slot still produces a conflict. -/
theorem c9_mock_window_ignored_witness :
    (mockGetEvents ⟨[("e1", ⟨"e1", "s", "d", "a", "b", "confirmed"⟩)], 2⟩
        "primary" ⟨2025, 1, 6, 10, 0, 0⟩ ⟨2025, 1, 6, 10, 30, 0⟩).events =
      ([("e1", (⟨"e1", "s", "d", "a", "b", "confirmed"⟩ : MockEvent))].map Prod.snd) ∧
    (mockGetEvents ⟨[("e1", ⟨"e1", "s", "d", "a", "b", "confirmed"⟩)], 2⟩
        "primary" ⟨2025, 1, 6, 10, 0, 0⟩ ⟨2025, 1, 6, 10, 30, 0⟩).success = true ∧
    (((checkSlotAvailability businessHoursDefault
        ⟨[("e1", ⟨"e1", "s", "d", "a", "b", "confirmed"⟩)], 2⟩
        "2025-01-06" "10:00" 30).getD ⟨true, []⟩).available = false ↔
      ([("e1", (⟨"e1", "s", "d", "a", "b", "confirmed"⟩ : MockEvent))] :
        List (String × MockEvent)) ≠ []) :=
  c9_mock_window_ignored ⟨[("e1", ⟨"e1", "s", "d", "a", "b", "confirmed"⟩)], 2⟩
    "primary" ⟨2025, 1, 6, 10, 0, 0⟩ ⟨2025, 1, 6, 10, 30, 0⟩
    businessHoursDefault "2025-01-06" "10:00" 30
    ((checkSlotAvailability businessHoursDefault
        ⟨[("e1", ⟨"e1", "s", "d", "a", "b", "confirmed"⟩)], 2⟩
        "2025-01-06" "10:00" 30).getD ⟨true, []⟩) (by decide)

/-- Claim C10.  The relative-day alternation lists amanha before the
accented day-after-tomorrow phrase, so the accent-less phrase depois de
amanha matches the amanha alternative inside it and resolves to the
reference date plus one day at the default 09:00, while only the accented
depois de amanhã resolves to the reference date plus two days. -/
theorem c10_accentless_day_after_tomorrow : ∀ base : DT,
    parseDatetime "depois de amanha" base =
      some ⟨(addDays base 1).y, (addDays base 1).mo, (addDays base 1).d,
            9, 0, 0⟩ ∧
    parseDatetime "depois de amanhã" base =
      some ⟨(addDays base 2).y, (addDays base 2).mo, (addDays base 2).d,
            9, 0, 0⟩ :=
  fun _ => ⟨rfl, rfl⟩

/-! ### Order lemmas for the datetime model, used by the slot claims -/

theorem dtLt_iff (a b : DT) : dtLt a b = true ↔
    (a.y < b.y ∨ (a.y = b.y ∧ (a.mo < b.mo ∨ (a.mo = b.mo ∧
    (a.d < b.d ∨ (a.d = b.d ∧ (a.h < b.h ∨ (a.h = b.h ∧
    (a.mi < b.mi ∨ (a.mi = b.mi ∧ a.s < b.s)))))))))) := by
  simp [dtLt]

theorem dateLtB_iff (a b : DT) : dateLtB a b = true ↔
    (a.y < b.y ∨ (a.y = b.y ∧ (a.mo < b.mo ∨ (a.mo = b.mo ∧ a.d < b.d)))) := by
  simp [dateLtB]

theorem dtLe_iff (a b : DT) : dtLe a b = true ↔ dtLt b a = false := by
  simp [dtLe]

theorem dtLt_of_dateLtB {a b : DT} (h : dateLtB a b = true) :
    dtLt a b = true := by
  rw [dateLtB_iff] at h
  rw [dtLt_iff]
  omega

theorem dtLt_of_lt_of_le {a b c : DT} (h1 : dtLt a b = true)
    (h2 : dtLe b c = true) : dtLt a c = true := by
  rw [dtLe_iff] at h2
  rw [dtLt_iff] at h1 ⊢
  have h2' := (dtLt_iff c b).not
  rw [h2] at h2'
  simp only [Bool.false_eq_true, not_false_iff, true_iff] at h2'
  omega

/-- Date-field well-formedness used by the calendar monotonicity lemmas:
unlike dateValid it carries no upper year bound, since adding days can
leave the datetime constructor range. -/
def dateOk (dt : DT) : Bool :=
  decide (1 ≤ dt.mo ∧ dt.mo ≤ 12 ∧ 1 ≤ dt.d ∧ dt.d ≤ daysInMonth dt.y dt.mo)

theorem daysInMonth_ge (yr mo : Nat) : 28 ≤ daysInMonth yr mo := by
  unfold daysInMonth
  split
  · split <;> omega
  · split <;> omega

theorem nextDay_spec (dt : DT) (h : dateOk dt = true) :
    dateOk (nextDay dt) = true ∧ dateLtB dt (nextDay dt) = true ∧
    (nextDay dt).h = dt.h ∧ (nextDay dt).mi = dt.mi ∧
    (nextDay dt).s = dt.s := by
  simp only [dateOk, decide_eq_true_eq] at h
  unfold nextDay
  split
  · refine ⟨?_, ?_, rfl, rfl, rfl⟩
    · simp only [dateOk, decide_eq_true_eq]
      omega
    · simp only [dateLtB_iff, true_and]
      omega
  · split
    · refine ⟨?_, ?_, rfl, rfl, rfl⟩
      · simp only [dateOk, decide_eq_true_eq]
        have := daysInMonth_ge dt.y (dt.mo + 1)
        omega
      · simp only [dateLtB_iff, true_and]
        omega
    · refine ⟨?_, ?_, rfl, rfl, rfl⟩
      · simp only [dateOk, decide_eq_true_eq]
        have := daysInMonth_ge (dt.y + 1) 1
        omega
      · simp only [dateLtB_iff, true_and]
        omega

theorem addDays_spec (dt : DT) (h : dateOk dt = true) : ∀ n : Nat,
    dateOk (addDays dt n) = true ∧ (addDays dt n).h = dt.h ∧
    (addDays dt n).mi = dt.mi ∧ (addDays dt n).s = dt.s := by
  intro n
  induction n with
  | zero => exact ⟨h, rfl, rfl, rfl⟩
  | succ k ih =>
    obtain ⟨hok, hh, hmi, hs⟩ := ih
    obtain ⟨hok2, _, hh2, hmi2, hs2⟩ := nextDay_spec (addDays dt k) hok
    exact ⟨hok2, by rw [show addDays dt (k + 1) = nextDay (addDays dt k) from rfl,
      hh2, hh], by rw [show addDays dt (k + 1) = nextDay (addDays dt k) from rfl,
      hmi2, hmi], by rw [show addDays dt (k + 1) = nextDay (addDays dt k) from rfl,
      hs2, hs]⟩

theorem dateLtB_trans {a b c : DT} (h1 : dateLtB a b = true)
    (h2 : dateLtB b c = true) : dateLtB a c = true := by
  rw [dateLtB_iff] at h1 h2 ⊢
  omega

theorem addDays_dateLtB (dt : DT) (h : dateOk dt = true) :
    ∀ n : Nat, 1 ≤ n → dateLtB dt (addDays dt n) = true := by
  intro n
  induction n with
  | zero => omega
  | succ k ih =>
    intro _
    have hok := (addDays_spec dt h k).1
    have hstep := (nextDay_spec (addDays dt k) hok).2.1
    cases Nat.eq_zero_or_pos k with
    | inl hk0 =>
      subst hk0
      exact hstep
    | inr hk1 =>
      exact dateLtB_trans (ih hk1) hstep

/-- Adding at least one minute to a datetime with an in-range hour and a
well-formed date yields a strictly later datetime in the lexicographic
order Python uses. -/
theorem addMinutes_gt (dt : DT) (k : Nat) (hk : 1 ≤ k)
    (hok : dateOk dt = true) (_hh : dt.h ≤ 23) (hmi : dt.mi ≤ 59) :
    dtLt dt (addMinutes dt k) = true := by
  simp only [addMinutes]
  rcases Nat.eq_zero_or_pos ((dt.h + (dt.mi + k) / 60) / 24) with h0 | hpos
  · rw [h0, dtLt_iff]
    dsimp only [addDays]
    omega
  · have hxok : dateOk { y := dt.y, mo := dt.mo, d := dt.d, h := (dt.h + (dt.mi + k) / 60) % 24, mi := (dt.mi + k) % 60, s := dt.s } = true := by
      simp only [dateOk, decide_eq_true_eq] at hok ⊢
      exact hok
    have hdlt := addDays_dateLtB _ hxok _ hpos
    refine dtLt_of_dateLtB ?_
    rw [dateLtB_iff] at hdlt ⊢
    dsimp only at hdlt
    exact hdlt

/-! ### Facts extracted from a successful strptime -/

theorem parseISODate_valid (s : String) (yr mo d : Nat)
    (h : parseISODate s = some (yr, mo, d)) : dateValid yr mo d = true := by
  unfold parseISODate at h
  split at h
  · exact absurd h (by simp)
  · split at h
    · exact absurd h (by simp)
    · split at h
      · exact absurd h (by simp)
      · split at h
        · simp only [Option.some.injEq, Prod.mk.injEq] at h
          obtain ⟨e1, e2, e3⟩ := h
          subst e1; subst e2; subst e3
          assumption
        · exact absurd h (by simp)

theorem dateOk_of_dateValid (yr mo d : Nat) (h : dateValid yr mo d = true)
    (hh mm ss : Nat) : dateOk ⟨yr, mo, d, hh, mm, ss⟩ = true := by
  simp only [dateValid, Bool.and_eq_true, decide_eq_true_eq] at h
  simp only [dateOk, decide_eq_true_eq]
  omega

/-! ### Membership in the generated slot list -/

theorem bnot_and_iff (x y : Bool) : (!(x && y)) = true ↔
    ¬(x = true ∧ y = true) := by
  cases x <;> cases y <;> simp

theorem mem_halfHourSlots (sh eh hh mm : Nat) :
    ((hh, mm) ∈ halfHourSlots sh eh) ↔
      (sh ≤ hh ∧ hh < eh ∧ (mm = 0 ∨ mm = 30)) := by
  unfold halfHourSlots
  rw [List.mem_flatMap]
  constructor
  · rintro ⟨a, ha, hin⟩
    rw [List.mem_range'_1] at ha
    have hcases : (hh, mm) = (a, 0) ∨ (hh, mm) = (a, 30) := by
      rcases List.mem_cons.mp hin with h | h2
      · exact Or.inl h
      · rcases List.mem_cons.mp h2 with h | h3
        · exact Or.inr h
        · exact absurd h3 (List.not_mem_nil _)
    rcases hcases with h | h
    · injection h with e1 e2
      subst e1; subst e2
      exact ⟨ha.1, by omega, Or.inl rfl⟩
    · injection h with e1 e2
      subst e1; subst e2
      exact ⟨ha.1, by omega, Or.inr rfl⟩
  · rintro ⟨hlo, hhi, hmm⟩
    refine ⟨hh, ?_, ?_⟩
    · rw [List.mem_range'_1]
      omega
    · rcases hmm with e | e
      · subst e
        exact List.mem_cons_self _ _
      · subst e
        exact List.mem_cons_of_mem _ (List.mem_cons_self _ _)

theorem slotFree_iff (occupied : List (DT × DT)) (slot : DT) :
    slotFree occupied slot = true ↔
      ∀ ab ∈ occupied, ¬(dtLe ab.1 slot = true ∧ dtLt slot ab.2 = true) := by
  unfold slotFree
  rw [List.all_eq_true]
  constructor
  · intro h ab hab
    have h2 := h ab hab
    rw [bnot_and_iff] at h2
    exact h2
  · intro h ab hab
    rw [bnot_and_iff]
    exact h ab hab

theorem mem_slots_iff (sh eh yr mo d : Nat) (occupied : List (DT × DT))
    (hm : Nat × Nat) :
    (hm ∈ (halfHourSlots sh eh).filter
        (fun q => slotFree occupied ⟨yr, mo, d, q.1, q.2, 0⟩) ↔
      (sh ≤ hm.1 ∧ hm.1 < eh ∧ (hm.2 = 0 ∨ hm.2 = 30) ∧
        ∀ ab ∈ occupied, ¬(dtLe ab.1 ⟨yr, mo, d, hm.1, hm.2, 0⟩ = true ∧
          dtLt ⟨yr, mo, d, hm.1, hm.2, 0⟩ ab.2 = true))) := by
  obtain ⟨hh, mm⟩ := hm
  rw [List.mem_filter]
  constructor
  · rintro ⟨hmem, hpred⟩
    obtain ⟨h1, h2, h3⟩ := (mem_halfHourSlots sh eh hh mm).mp hmem
    refine ⟨h1, h2, h3, ?_⟩
    exact (slotFree_iff occupied ⟨yr, mo, d, hh, mm, 0⟩).mp hpred
  · rintro ⟨h1, h2, h3, hfree⟩
    refine ⟨(mem_halfHourSlots sh eh hh mm).mpr ⟨h1, h2, h3⟩, ?_⟩
    exact (slotFree_iff occupied ⟨yr, mo, d, hh, mm, 0⟩).mpr hfree

/-- Claim C4.  For the day's generated availability list: a half-hour
start is in the list exactly when it lies in the business window and no
existing event interval blocks it in the half-open sense, an event
blocking a slot start exactly when event start is not after it and it is
strictly before event end; consequently a slot whose whole service
interval is contained in an existing event interval is never returned,
for any positive duration. -/
theorem c4_available_slots (hours : List (String × String × String))
    (dateStr : String) (occupied : List (DT × DT)) (yr mo d sh eh : Nat)
    (st en : String) (slots : List (Nat × Nat)) (dur : Nat)
    (hp : parseISODate dateStr = some (yr, mo, d))
    (hcl : closedFlag hours (weekdayName (pyWeekdayDate yr mo d)) = false)
    (hlk : lookupHours hours (weekdayName (pyWeekdayDate yr mo d)) =
      some (st, en))
    (hsh : hourOfString st = some sh)
    (heh : hourOfString en = some eh)
    (heh24 : eh ≤ 24)
    (hdur : 1 ≤ dur)
    (hres : generateAvailableSlots hours dateStr occupied = some slots) :
    (∀ hm : Nat × Nat, hm ∈ slots ↔
      (sh ≤ hm.1 ∧ hm.1 < eh ∧ (hm.2 = 0 ∨ hm.2 = 30) ∧
        ∀ ab ∈ occupied, ¬(dtLe ab.1 ⟨yr, mo, d, hm.1, hm.2, 0⟩ = true ∧
          dtLt ⟨yr, mo, d, hm.1, hm.2, 0⟩ ab.2 = true))) ∧
    (∀ hm ∈ slots, ∀ ab ∈ occupied,
      ¬(dtLe ab.1 ⟨yr, mo, d, hm.1, hm.2, 0⟩ = true ∧
        dtLe (addMinutes ⟨yr, mo, d, hm.1, hm.2, 0⟩ dur) ab.2 = true)) := by
  unfold generateAvailableSlots at hres
  simp only [hp, hcl, hlk, hsh, heh, Bool.false_eq_true, if_false,
    Option.some.injEq] at hres
  have hmem : ∀ hm : Nat × Nat, hm ∈ slots ↔
      (sh ≤ hm.1 ∧ hm.1 < eh ∧ (hm.2 = 0 ∨ hm.2 = 30) ∧
        ∀ ab ∈ occupied, ¬(dtLe ab.1 ⟨yr, mo, d, hm.1, hm.2, 0⟩ = true ∧
          dtLt ⟨yr, mo, d, hm.1, hm.2, 0⟩ ab.2 = true)) := by
    intro hm
    rw [← hres]
    exact mem_slots_iff sh eh yr mo d occupied hm
  refine ⟨hmem, ?_⟩
  intro hm hmmem ab hab hcontain
  obtain ⟨hfirst, hsecond⟩ := hcontain
  obtain ⟨hlo, hhi, hmm, hfree⟩ := (hmem hm).mp hmmem
  have hok : dateOk ⟨yr, mo, d, hm.1, hm.2, 0⟩ = true :=
    dateOk_of_dateValid yr mo d (parseISODate_valid dateStr yr mo d hp) _ _ _
  have hlt : dtLt (⟨yr, mo, d, hm.1, hm.2, 0⟩ : DT)
      (addMinutes ⟨yr, mo, d, hm.1, hm.2, 0⟩ dur) = true :=
    addMinutes_gt _ dur hdur hok (by show hm.1 ≤ 23; omega)
      (by show hm.2 ≤ 59; omega)
  exact hfree ab hab ⟨hfirst, dtLt_of_lt_of_le hlt hsecond⟩

/-- Witness for c4_available_slots: Monday 2025-01-06 with a reduced
Monday window 09:00 to 11:00 and one event from 10:00 to 11:00; the
generated list is the two nine-o-clock slots. -/
theorem c4_available_slots_witness :
    (∀ hm : Nat × Nat, hm ∈ ([(9, 0), (9, 30)] : List (Nat × Nat)) ↔
      (9 ≤ hm.1 ∧ hm.1 < 11 ∧ (hm.2 = 0 ∨ hm.2 = 30) ∧
        ∀ ab ∈ ([(⟨2025, 1, 6, 10, 0, 0⟩, ⟨2025, 1, 6, 11, 0, 0⟩)] :
            List (DT × DT)),
          ¬(dtLe ab.1 ⟨2025, 1, 6, hm.1, hm.2, 0⟩ = true ∧
            dtLt ⟨2025, 1, 6, hm.1, hm.2, 0⟩ ab.2 = true))) ∧
    (∀ hm ∈ ([(9, 0), (9, 30)] : List (Nat × Nat)),
      ∀ ab ∈ ([(⟨2025, 1, 6, 10, 0, 0⟩, ⟨2025, 1, 6, 11, 0, 0⟩)] :
          List (DT × DT)),
        ¬(dtLe ab.1 ⟨2025, 1, 6, hm.1, hm.2, 0⟩ = true ∧
          dtLe (addMinutes ⟨2025, 1, 6, hm.1, hm.2, 0⟩ 30) ab.2 = true)) :=
  c4_available_slots [("monday", "09:00", "11:00")] "2025-01-06"
    [(⟨2025, 1, 6, 10, 0, 0⟩, ⟨2025, 1, 6, 11, 0, 0⟩)] 2025 1 6 9 11
    "09:00" "11:00" [(9, 0), (9, 30)] 30 (by decide) (by decide) (by decide)
    (by decide) (by decide) (by decide) (by decide) (by decide)

/-! ### Character and scanner lemmas for the round-trip claim -/

theorem isDigit_digitChar (k : Nat) (hk : k ≤ 9) :
    (digitChar k).isDigit = true := by
  interval_cases k <;> rfl

theorem dval_digitChar (k : Nat) (hk : k ≤ 9) : dval (digitChar k) = k := by
  interval_cases k <;> rfl

theorem isWs_digitChar (k : Nat) (hk : k ≤ 9) : isWs (digitChar k) = false := by
  interval_cases k <;> rfl

theorem pyLowerChar_digitChar (k : Nat) (hk : k ≤ 9) :
    pyLowerChar (digitChar k) = digitChar k := by
  interval_cases k <;> rfl

theorem digitChar_ne_colon (k : Nat) (hk : k ≤ 9) : ¬(digitChar k = ':') := by
  interval_cases k <;> decide

theorem eatDigit_some (c : Char) (r : List Char) (h : c.isDigit = true) :
    eatDigit (c :: r) = some (dval c, r) := by
  simp [eatDigit, h]

theorem eatDigit_none (c : Char) (r : List Char) (h : c.isDigit = false) :
    eatDigit (c :: r) = none := by
  simp [eatDigit, h]

theorem eatCh_eq (x : Char) (r : List Char) : eatCh x (x :: r) = some r := by
  simp [eatCh]

theorem eatCh_ne (x c : Char) (r : List Char) (h : ¬(c = x)) :
    eatCh x (c :: r) = none := by
  simp [eatCh, h]

theorem eatSep_slash (r : List Char) : eatSep ('/' :: r) = some r := by
  simp [eatSep]

theorem eat2_some (c1 c2 : Char) (r : List Char) (h1 : c1.isDigit = true)
    (h2 : c2.isDigit = true) :
    eat2 (c1 :: c2 :: r) = some (10 * dval c1 + dval c2, r) := by
  simp only [eat2, eatDigit_some c1 (c2 :: r) h1, eatDigit_some c2 r h2]

theorem eat2_none1 (c1 : Char) (r : List Char) (h : c1.isDigit = false) :
    eat2 (c1 :: r) = none := by
  simp only [eat2, eatDigit_none c1 r h]

theorem eat2_none2 (c1 c2 : Char) (r : List Char) (h1 : c1.isDigit = true)
    (h2 : c2.isDigit = false) : eat2 (c1 :: c2 :: r) = none := by
  simp only [eat2, eatDigit_some c1 (c2 :: r) h1, eatDigit_none c2 r h2]

theorem eat4_some (c1 c2 c3 c4 : Char) (r : List Char)
    (h1 : c1.isDigit = true) (h2 : c2.isDigit = true)
    (h3 : c3.isDigit = true) (h4 : c4.isDigit = true) :
    eat4 (c1 :: c2 :: c3 :: c4 :: r) =
      some (100 * (10 * dval c1 + dval c2) + (10 * dval c3 + dval c4), r) := by
  simp only [eat4, eat2_some c1 c2 (c3 :: c4 :: r) h1 h2,
    eat2_some c3 c4 r h3 h4]

theorem ne_colon_of_isDigit (c : Char) (h : c.isDigit = true) : ¬(c = ':') := by
  intro e
  subst e
  exact absurd h (by decide)

theorem matchAt24_noDigit (c : Char) (r : List Char) (h : c.isDigit = false) :
    matchAt24 (c :: r) = none := by
  simp only [matchAt24, matchAt24two, matchAt24one, eat2_none1 c r h,
    eatDigit_none c r h]

theorem matchAt24_oneNoColon (c1 c2 : Char) (r : List Char)
    (h1 : c1.isDigit = true) (h2 : c2.isDigit = false) (h3 : ¬(c2 = ':')) :
    matchAt24 (c1 :: c2 :: r) = none := by
  simp only [matchAt24, matchAt24two, matchAt24one, eat2_none2 c1 c2 r h1 h2,
    eatDigit_some c1 (c2 :: r) h1, eatCh_ne ':' c2 r h3]

theorem matchAt24_twoNoColon (c1 c2 c3 : Char) (r : List Char)
    (h1 : c1.isDigit = true) (h2 : c2.isDigit = true) (h3 : ¬(c3 = ':')) :
    matchAt24 (c1 :: c2 :: c3 :: r) = none := by
  have hc2 : ¬(c2 = ':') := ne_colon_of_isDigit c2 h2
  simp only [matchAt24, matchAt24two, matchAt24one,
    eat2_some c1 c2 (c3 :: r) h1 h2, eatCh_ne ':' c3 r h3,
    eatDigit_some c1 (c2 :: c3 :: r) h1, eatCh_ne ':' c2 (c3 :: r) hc2]

theorem matchAt24_success (c1 c2 c4 c5 : Char) (r : List Char)
    (h1 : c1.isDigit = true) (h2 : c2.isDigit = true)
    (h4 : c4.isDigit = true) (h5 : c5.isDigit = true) :
    matchAt24 (c1 :: c2 :: ':' :: c4 :: c5 :: r) =
      some (10 * dval c1 + dval c2, 10 * dval c4 + dval c5) := by
  simp only [matchAt24, matchAt24two,
    eat2_some c1 c2 (':' :: c4 :: c5 :: r) h1 h2,
    eatCh_eq ':' (c4 :: c5 :: r), eat2_some c4 c5 r h4 h5]

theorem matchAtBr_success (a b c d e f g i : Char) (r : List Char)
    (ha : a.isDigit = true) (hb : b.isDigit = true) (hc : c.isDigit = true)
    (hd : d.isDigit = true) (he : e.isDigit = true) (hf : f.isDigit = true)
    (hg : g.isDigit = true) (hi : i.isDigit = true) :
    matchAtBr (a :: b :: '/' :: c :: d :: '/' :: e :: f :: g :: i :: r) =
      some (10 * dval a + dval b, 10 * dval c + dval d,
        100 * (10 * dval e + dval f) + (10 * dval g + dval i)) := by
  simp only [matchAtBr, brMonth, brTail,
    eat2_some a b ('/' :: c :: d :: '/' :: e :: f :: g :: i :: r) ha hb,
    eatSep_slash,
    eat2_some c d ('/' :: e :: f :: g :: i :: r) hc hd,
    eat4_some e f g i r he hf hg hi]

theorem daysInMonth_le (yr mo : Nat) : daysInMonth yr mo ≤ 31 := by
  unfold daysInMonth
  split
  · split <;> omega
  · split <;> omega

theorem pyLowerChar_slash : pyLowerChar '/' = '/' := by decide

theorem pyLowerChar_space : pyLowerChar ' ' = ' ' := by decide

theorem pyLowerChar_colon : pyLowerChar ':' = ':' := by decide

theorem search24_cons_none (c : Char) (r : List Char)
    (h : matchAt24 (c :: r) = none) : search24 (c :: r) = search24 r := by
  conv_lhs => unfold search24
  rw [h]

theorem search24_cons_some (c : Char) (r : List Char) (v : Nat × Nat)
    (h : matchAt24 (c :: r) = some v) : search24 (c :: r) = some v := by
  conv_lhs => unfold search24
  rw [h]

theorem searchBr_cons_some (c : Char) (r : List Char) (v : Nat × Nat × Nat)
    (h : matchAtBr (c :: r) = some v) : searchBr (c :: r) = some v := by
  conv_lhs => unfold searchBr
  rw [h]

theorem search24_render (a1 a2 b1 b2 y1 y2 y3 y4 p1 p2 q1 q2 : Char)
    (ha1 : a1.isDigit = true) (ha2 : a2.isDigit = true)
    (hb1 : b1.isDigit = true) (hb2 : b2.isDigit = true)
    (hy1 : y1.isDigit = true) (hy2 : y2.isDigit = true)
    (hy3 : y3.isDigit = true) (hy4 : y4.isDigit = true)
    (hp1 : p1.isDigit = true) (hp2 : p2.isDigit = true)
    (hq1 : q1.isDigit = true) (hq2 : q2.isDigit = true) :
    search24 (a1 :: a2 :: '/' :: b1 :: b2 :: '/' :: y1 :: y2 :: y3 :: y4 ::
      ' ' :: p1 :: p2 :: ':' :: q1 :: q2 :: []) =
      some (10 * dval p1 + dval p2, 10 * dval q1 + dval q2) := by
  rw [search24_cons_none _ _
    (matchAt24_twoNoColon a1 a2 '/' _ ha1 ha2 (by decide))]
  rw [search24_cons_none _ _
    (matchAt24_oneNoColon a2 '/' _ ha2 (by decide) (by decide))]
  rw [search24_cons_none _ _ (matchAt24_noDigit '/' _ (by decide))]
  rw [search24_cons_none _ _
    (matchAt24_twoNoColon b1 b2 '/' _ hb1 hb2 (by decide))]
  rw [search24_cons_none _ _
    (matchAt24_oneNoColon b2 '/' _ hb2 (by decide) (by decide))]
  rw [search24_cons_none _ _ (matchAt24_noDigit '/' _ (by decide))]
  rw [search24_cons_none _ _
    (matchAt24_twoNoColon y1 y2 y3 _ hy1 hy2 (ne_colon_of_isDigit y3 hy3))]
  rw [search24_cons_none _ _
    (matchAt24_twoNoColon y2 y3 y4 _ hy2 hy3 (ne_colon_of_isDigit y4 hy4))]
  rw [search24_cons_none _ _
    (matchAt24_twoNoColon y3 y4 ' ' _ hy3 hy4 (by decide))]
  rw [search24_cons_none _ _
    (matchAt24_oneNoColon y4 ' ' _ hy4 (by decide) (by decide))]
  rw [search24_cons_none _ _ (matchAt24_noDigit ' ' _ (by decide))]
  rw [search24_cons_some _ _ _
    (matchAt24_success p1 p2 q1 q2 [] hp1 hp2 hq1 hq2)]

theorem searchBr_render (a1 a2 b1 b2 y1 y2 y3 y4 : Char) (r : List Char)
    (ha1 : a1.isDigit = true) (ha2 : a2.isDigit = true)
    (hb1 : b1.isDigit = true) (hb2 : b2.isDigit = true)
    (hy1 : y1.isDigit = true) (hy2 : y2.isDigit = true)
    (hy3 : y3.isDigit = true) (hy4 : y4.isDigit = true) :
    searchBr (a1 :: a2 :: '/' :: b1 :: b2 :: '/' :: y1 :: y2 :: y3 :: y4 :: r) =
      some (10 * dval a1 + dval a2, 10 * dval b1 + dval b2,
        100 * (10 * dval y1 + dval y2) + (10 * dval y3 + dval y4)) := by
  rw [searchBr_cons_some _ _ _
    (matchAtBr_success a1 a2 b1 b2 y1 y2 y3 y4 r ha1 ha2 hb1 hb2 hy1 hy2
      hy3 hy4)]

theorem dropWhile_notHead (p : Char → Bool) (c : Char) (l : List Char)
    (h : p c = false) : (c :: l).dropWhile p = c :: l := by
  simp [List.dropWhile_cons, h]

theorem stripBy_id_of_ends (p : Char → Bool) (c d : Char) (l : List Char)
    (hc : p c = false) (hd : p d = false) :
    stripBy p (c :: (l ++ [d])) = c :: (l ++ [d]) := by
  unfold stripBy
  rw [dropWhile_notHead p c (l ++ [d]) hc]
  rw [show (c :: (l ++ [d])).reverse = d :: (l.reverse ++ [c]) from by simp]
  rw [dropWhile_notHead p d (l.reverse ++ [c]) hd]
  simp

/-- Claim C8.  Round trip: rendering any valid resolved moment in the
explicit day/month/year hour:minute form and resolving that phrase again,
under any reference moment, returns exactly the same date and time of
day. -/
theorem c8_roundtrip (yr mo d h mi : Nat) (base : DT)
    (hdv : dateValid yr mo d = true) (htv : timeValid h mi = true) :
    parseDatetime (String.mk (renderExplicit ⟨yr, mo, d, h, mi, 0⟩)) base =
      some ⟨yr, mo, d, h, mi, 0⟩ := by
  have hprops := hdv
  simp only [dateValid, Bool.and_eq_true, decide_eq_true_eq] at hprops
  have htprops := htv
  simp only [timeValid, Bool.and_eq_true, decide_eq_true_eq] at htprops
  have hdim := daysInMonth_le yr mo
  have iA1 : (digitChar (d / 10)).isDigit = true := isDigit_digitChar _ (by omega)
  have iA2 : (digitChar (d % 10)).isDigit = true := isDigit_digitChar _ (by omega)
  have iB1 : (digitChar (mo / 10)).isDigit = true := isDigit_digitChar _ (by omega)
  have iB2 : (digitChar (mo % 10)).isDigit = true := isDigit_digitChar _ (by omega)
  have iY1 : (digitChar (yr / 1000)).isDigit = true := isDigit_digitChar _ (by omega)
  have iY2 : (digitChar (yr / 100 % 10)).isDigit = true := isDigit_digitChar _ (by omega)
  have iY3 : (digitChar (yr / 10 % 10)).isDigit = true := isDigit_digitChar _ (by omega)
  have iY4 : (digitChar (yr % 10)).isDigit = true := isDigit_digitChar _ (by omega)
  have iP1 : (digitChar (h / 10)).isDigit = true := isDigit_digitChar _ (by omega)
  have iP2 : (digitChar (h % 10)).isDigit = true := isDigit_digitChar _ (by omega)
  have iQ1 : (digitChar (mi / 10)).isDigit = true := isDigit_digitChar _ (by omega)
  have iQ2 : (digitChar (mi % 10)).isDigit = true := isDigit_digitChar _ (by omega)
  have hR : renderExplicit ⟨yr, mo, d, h, mi, 0⟩ =
      digitChar (d / 10) :: digitChar (d % 10) :: '/' :: digitChar (mo / 10) ::
      digitChar (mo % 10) :: '/' :: digitChar (yr / 1000) ::
      digitChar (yr / 100 % 10) :: digitChar (yr / 10 % 10) ::
      digitChar (yr % 10) :: ' ' :: digitChar (h / 10) :: digitChar (h % 10) ::
      ':' :: digitChar (mi / 10) :: digitChar (mi % 10) :: [] := rfl
  have hBr : searchBr (digitChar (d / 10) :: digitChar (d % 10) :: '/' :: digitChar (mo / 10) ::
      digitChar (mo % 10) :: '/' :: digitChar (yr / 1000) ::
      digitChar (yr / 100 % 10) :: digitChar (yr / 10 % 10) ::
      digitChar (yr % 10) :: ' ' :: digitChar (h / 10) :: digitChar (h % 10) ::
      ':' :: digitChar (mi / 10) :: digitChar (mi % 10) :: []) = some (d, mo, yr) := by
    rw [searchBr_render _ _ _ _ _ _ _ _ _ iA1 iA2 iB1 iB2 iY1 iY2 iY3 iY4]
    rw [dval_digitChar (d / 10) (by omega), dval_digitChar (d % 10) (by omega),
      dval_digitChar (mo / 10) (by omega), dval_digitChar (mo % 10) (by omega),
      dval_digitChar (yr / 1000) (by omega),
      dval_digitChar (yr / 100 % 10) (by omega),
      dval_digitChar (yr / 10 % 10) (by omega),
      dval_digitChar (yr % 10) (by omega)]
    rw [Nat.div_add_mod d 10, Nat.div_add_mod mo 10]
    rw [show 100 * (10 * (yr / 1000) + yr / 100 % 10) +
        (10 * (yr / 10 % 10) + yr % 10) = yr from by omega]
  have h24f : search24 (digitChar (d / 10) :: digitChar (d % 10) :: '/' :: digitChar (mo / 10) ::
      digitChar (mo % 10) :: '/' :: digitChar (yr / 1000) ::
      digitChar (yr / 100 % 10) :: digitChar (yr / 10 % 10) ::
      digitChar (yr % 10) :: ' ' :: digitChar (h / 10) :: digitChar (h % 10) ::
      ':' :: digitChar (mi / 10) :: digitChar (mi % 10) :: []) = some (h, mi) := by
    rw [search24_render _ _ _ _ _ _ _ _ _ _ _ _ iA1 iA2 iB1 iB2 iY1 iY2 iY3
      iY4 iP1 iP2 iQ1 iQ2]
    rw [dval_digitChar (h / 10) (by omega), dval_digitChar (h % 10) (by omega),
      dval_digitChar (mi / 10) (by omega), dval_digitChar (mi % 10) (by omega)]
    rw [Nat.div_add_mod h 10, Nat.div_add_mod mi 10]
  have hnorm : normText (String.mk (renderExplicit ⟨yr, mo, d, h, mi, 0⟩)) =
      digitChar (d / 10) :: digitChar (d % 10) :: '/' :: digitChar (mo / 10) ::
      digitChar (mo % 10) :: '/' :: digitChar (yr / 1000) ::
      digitChar (yr / 100 % 10) :: digitChar (yr / 10 % 10) ::
      digitChar (yr % 10) :: ' ' :: digitChar (h / 10) :: digitChar (h % 10) ::
      ':' :: digitChar (mi / 10) :: digitChar (mi % 10) :: [] := by
    unfold normText
    rw [show (String.mk (renderExplicit ⟨yr, mo, d, h, mi, 0⟩)).toList =
      renderExplicit ⟨yr, mo, d, h, mi, 0⟩ from rfl, hR]
    rw [show (digitChar (d / 10) :: digitChar (d % 10) :: '/' :: digitChar (mo / 10) ::
      digitChar (mo % 10) :: '/' :: digitChar (yr / 1000) ::
      digitChar (yr / 100 % 10) :: digitChar (yr / 10 % 10) ::
      digitChar (yr % 10) :: ' ' :: digitChar (h / 10) :: digitChar (h % 10) ::
      ':' :: digitChar (mi / 10) :: digitChar (mi % 10) :: []).map pyLowerChar =
        digitChar (d / 10) :: digitChar (d % 10) :: '/' :: digitChar (mo / 10) ::
      digitChar (mo % 10) :: '/' :: digitChar (yr / 1000) ::
      digitChar (yr / 100 % 10) :: digitChar (yr / 10 % 10) ::
      digitChar (yr % 10) :: ' ' :: digitChar (h / 10) :: digitChar (h % 10) ::
      ':' :: digitChar (mi / 10) :: digitChar (mi % 10) :: [] from by
      simp only [List.map_cons, List.map_nil,
        pyLowerChar_digitChar (d / 10) (by omega),
        pyLowerChar_digitChar (d % 10) (by omega),
        pyLowerChar_digitChar (mo / 10) (by omega),
        pyLowerChar_digitChar (mo % 10) (by omega),
        pyLowerChar_digitChar (yr / 1000) (by omega),
        pyLowerChar_digitChar (yr / 100 % 10) (by omega),
        pyLowerChar_digitChar (yr / 10 % 10) (by omega),
        pyLowerChar_digitChar (yr % 10) (by omega),
        pyLowerChar_digitChar (h / 10) (by omega),
        pyLowerChar_digitChar (h % 10) (by omega),
        pyLowerChar_digitChar (mi / 10) (by omega),
        pyLowerChar_digitChar (mi % 10) (by omega),
        pyLowerChar_slash, pyLowerChar_space, pyLowerChar_colon]]
    rw [show (digitChar (d / 10) :: digitChar (d % 10) :: '/' :: digitChar (mo / 10) ::
      digitChar (mo % 10) :: '/' :: digitChar (yr / 1000) ::
      digitChar (yr / 100 % 10) :: digitChar (yr / 10 % 10) ::
      digitChar (yr % 10) :: ' ' :: digitChar (h / 10) :: digitChar (h % 10) ::
      ':' :: digitChar (mi / 10) :: digitChar (mi % 10) :: []) = digitChar (d / 10) ::
      ((digitChar (d % 10) :: '/' :: digitChar (mo / 10) ::
      digitChar (mo % 10) :: '/' :: digitChar (yr / 1000) ::
      digitChar (yr / 100 % 10) :: digitChar (yr / 10 % 10) ::
      digitChar (yr % 10) :: ' ' :: digitChar (h / 10) :: digitChar (h % 10) ::
      ':' :: digitChar (mi / 10) :: []) ++ [digitChar (mi % 10)]) from rfl]
    exact stripBy_id_of_ends isWs _ _ _ (isWs_digitChar _ (by omega))
      (isWs_digitChar _ (by omega))
  have hfinal : mkDT yr mo d h mi = some (⟨yr, mo, d, h, mi, 0⟩ : DT) := by
    unfold mkDT
    rw [hdv, htv]
    rfl
  simp only [parseDatetime, hnorm, parseExplicit, hBr, explicitWithDate,
    h24f, hfinal]

/-- Witness for c8_roundtrip: the moment 12 March 2024 at 14:30, rendered
and re-resolved with reference 2020-01-01. -/
theorem c8_roundtrip_witness :
    parseDatetime (String.mk (renderExplicit ⟨2024, 3, 12, 14, 30, 0⟩))
      ⟨2020, 1, 1, 0, 0, 0⟩ = some ⟨2024, 3, 12, 14, 30, 0⟩ :=
  c8_roundtrip 2024 3 12 14 30 ⟨2020, 1, 1, 0, 0, 0⟩ (by decide) (by decide)

end Tutto
